import Mathlib

/-
Verification of the Exely MCP hotel-booking core.

Shallow embedding of the Python sources:
  app/mcp_tools/tools.py        (offer cache, availability-to-reservation mapper,
                                 hotel-metadata cache, NL orchestrator repair rules)
  app/exely_client/client.py    (provider client error normalization)
  app/exely_client/schemas.py   (wire data model)
  app/llm_client/llm_client.py  (language-model call result shapes)
  telegram_bot.py               (session state machine and directive handling)

Python dicts are modelled as insertion-ordered association lists (dictGet /
dictSet / dictRemove below), matching CPython dict semantics: lookup by key,
assignment replaces the value in place, new keys are appended at the end.
Fields of the wire schemas that no claim touches are omitted from the
structures; every field that the translated code reads is present.
-/

namespace ExelySpec

/-! ## Python dict as an insertion-ordered association list -/

def dictGet {α β : Type} [DecidableEq α] : List (α × β) → α → Option β
  | [], _ => none
  | (k, v) :: rest, key => if key = k then some v else dictGet rest key

def dictSet {α β : Type} [DecidableEq α] : List (α × β) → α → β → List (α × β)
  | [], key, val => [(key, val)]
  | (k, v) :: rest, key, val =>
      if key = k then (k, val) :: rest else (k, v) :: dictSet rest key val

def dictRemove {α β : Type} [DecidableEq α] : List (α × β) → α → List (α × β)
  | [], _ => []
  | (k, v) :: rest, key => if key = k then rest else (k, v) :: dictRemove rest key

def dictKeys {α β : Type} (m : List (α × β)) : List α := m.map Prod.fst

theorem dictGet_dictSet_self {α β : Type} [DecidableEq α] (m : List (α × β)) (k : α) (v : β) :
    dictGet (dictSet m k v) k = some v := by
  induction m with
  | nil => simp [dictGet, dictSet]
  | cons hd tl ih =>
      obtain ⟨k0, v0⟩ := hd
      by_cases h : k = k0
      · simp [dictGet, dictSet, h]
      · simp [dictGet, dictSet, h, ih]

theorem dictGet_dictSet_ne {α β : Type} [DecidableEq α] (m : List (α × β)) (k k2 : α) (v : β)
    (h : k2 ≠ k) : dictGet (dictSet m k v) k2 = dictGet m k2 := by
  induction m with
  | nil => simp [dictGet, dictSet, h]
  | cons hd tl ih =>
      obtain ⟨k0, v0⟩ := hd
      by_cases hk : k = k0
      · subst hk
        simp [dictGet, dictSet, h]
      · by_cases hk2 : k2 = k0
        · simp [dictGet, dictSet, hk, hk2]
        · simp [dictGet, dictSet, hk, hk2, ih]

theorem dictGet_eq_none_iff {α β : Type} [DecidableEq α] (m : List (α × β)) (k : α) :
    dictGet m k = none ↔ k ∉ dictKeys m := by
  induction m with
  | nil => simp [dictGet, dictKeys]
  | cons hd tl ih =>
      obtain ⟨k0, v0⟩ := hd
      by_cases h : k = k0
      · simp [dictGet, dictKeys, h]
      · simp [dictGet, dictKeys, h, ih]

theorem dictKeys_dictSet_present {α β : Type} [DecidableEq α] (m : List (α × β)) (k : α) (v : β)
    (h : (dictGet m k).isSome) : dictKeys (dictSet m k v) = dictKeys m := by
  induction m with
  | nil => simp [dictGet] at h
  | cons hd tl ih =>
      obtain ⟨k0, v0⟩ := hd
      by_cases hk : k = k0
      · simp [dictKeys, dictSet, hk]
      · simp [dictGet, hk] at h
        simp [dictKeys, dictSet, hk] at ih ⊢
        exact ih h

theorem dictKeys_dictSet_absent {α β : Type} [DecidableEq α] (m : List (α × β)) (k : α) (v : β)
    (h : dictGet m k = none) : dictKeys (dictSet m k v) = dictKeys m ++ [k] := by
  induction m with
  | nil => simp [dictKeys, dictSet]
  | cons hd tl ih =>
      obtain ⟨k0, v0⟩ := hd
      by_cases hk : k = k0
      · simp [dictGet, hk] at h
      · simp [dictGet, hk] at h
        simp [dictKeys, dictSet, hk] at ih ⊢
        exact ih h

theorem dictKeys_nodup_dictSet {α β : Type} [DecidableEq α] (m : List (α × β)) (k : α) (v : β)
    (h : (dictKeys m).Nodup) : (dictKeys (dictSet m k v)).Nodup := by
  cases hg : dictGet m k with
  | none =>
      rw [dictKeys_dictSet_absent m k v hg]
      have hmem : k ∉ dictKeys m := (dictGet_eq_none_iff m k).mp hg
      simp [List.nodup_append, h, List.disjoint_singleton, hmem]
  | some v0 =>
      rw [dictKeys_dictSet_present m k v (by simp [hg])]
      exact h

theorem mem_dictKeys_dictSet {α β : Type} [DecidableEq α] (m : List (α × β)) (k k2 : α) (v : β)
    (h : k2 ∈ dictKeys (dictSet m k v)) : k2 ∈ dictKeys m ∨ k2 = k := by
  cases hg : dictGet m k with
  | none =>
      rw [dictKeys_dictSet_absent m k v hg] at h
      simpa using h
  | some v0 =>
      rw [dictKeys_dictSet_present m k v (by simp [hg])] at h
      exact Or.inl h

theorem dictGet_dictRemove_self {α β : Type} [DecidableEq α] (m : List (α × β)) (k : α)
    (h : (dictKeys m).Nodup) : dictGet (dictRemove m k) k = none := by
  induction m with
  | nil => simp [dictRemove, dictGet]
  | cons hd tl ih =>
      obtain ⟨k0, v0⟩ := hd
      rw [dictKeys, List.map_cons, List.nodup_cons] at h
      by_cases hk : k = k0
      · subst hk
        simp [dictRemove]
        exact (dictGet_eq_none_iff tl k).mpr (by simpa [dictKeys] using h.1)
      · simp [dictRemove, dictGet, hk]
        exact ih h.2

theorem mem_dictSet {α β : Type} [DecidableEq α] (m : List (α × β)) (k : α) (v : β)
    (p : α × β) (h : p ∈ dictSet m k v) : p ∈ m ∨ p = (k, v) := by
  induction m with
  | nil => simpa [dictSet] using h
  | cons hd tl ih =>
      obtain ⟨k0, v0⟩ := hd
      by_cases hk : k = k0
      · subst hk
        simp [dictSet] at h
        rcases h with h1 | h2
        · exact Or.inr (by simp [h1])
        · exact Or.inl (List.mem_cons_of_mem _ h2)
      · simp [dictSet, hk] at h
        rcases h with h1 | h2
        · exact Or.inl (by simp [h1])
        · rcases ih h2 with h3 | h4
          · exact Or.inl (List.mem_cons_of_mem _ h3)
          · exact Or.inr h4

theorem mem_snd_dictSet {α β : Type} [DecidableEq α] (m : List (α × β)) (k : α) (v w : β)
    (h : w ∈ (dictSet m k v).map Prod.snd) : w ∈ m.map Prod.snd ∨ w = v := by
  obtain ⟨p, hp, hw⟩ := List.mem_map.mp h
  rcases mem_dictSet m k v p hp with h1 | h2
  · exact Or.inl (List.mem_map.mpr ⟨p, h1, hw⟩)
  · subst h2; exact Or.inr hw.symm

theorem values_nodup_dictSet {α : Type} [DecidableEq α] (m : List (α × Nat)) (k : α) (v : Nat)
    (hb : ∀ p ∈ m, p.2 < v) (hnd : (m.map Prod.snd).Nodup) :
    ((dictSet m k v).map Prod.snd).Nodup := by
  induction m with
  | nil => simp [dictSet]
  | cons hd tl ih =>
      obtain ⟨k0, v0⟩ := hd
      simp only [List.map_cons, List.nodup_cons] at hnd
      by_cases hk : k = k0
      · subst hk
        have hset : dictSet ((k, v0) :: tl) k v = (k, v) :: tl := by simp [dictSet]
        rw [hset, List.map_cons, List.nodup_cons]
        refine ⟨fun hv => ?_, hnd.2⟩
        obtain ⟨p, hp, hpv⟩ := List.mem_map.mp hv
        have := hb p (List.mem_cons_of_mem _ hp)
        omega
      · have hset : dictSet ((k0, v0) :: tl) k v = (k0, v0) :: dictSet tl k v := by
          simp [dictSet, hk]
        rw [hset, List.map_cons, List.nodup_cons]
        refine ⟨fun hv => ?_, ih (fun p hp => hb p (List.mem_cons_of_mem _ hp)) hnd.2⟩
        rcases mem_snd_dictSet tl k v v0 hv with h1 | h2
        · exact hnd.1 h1
        · have := hb (k0, v0) (List.mem_cons_self _ _)
          simp at this
          omega

/-! ## A contiguous run of indices, used to talk about the 1-based reservation index space -/

def idxRange : Nat → Nat → List Nat
  | _, 0 => []
  | s, n + 1 => s :: idxRange (s + 1) n

theorem mem_idxRange (i : Nat) : ∀ (s n : Nat), i ∈ idxRange s n ↔ s ≤ i ∧ i < s + n := by
  intro s n
  induction n generalizing s with
  | zero => simp [idxRange] <;> omega
  | succ n ih =>
      simp [idxRange, ih (s + 1)] <;> omega

theorem idxRange_nodup : ∀ (s n : Nat), (idxRange s n).Nodup := by
  intro s n
  induction n generalizing s with
  | zero => simp [idxRange]
  | succ n ih =>
      simp [idxRange, List.nodup_cons, ih (s + 1), mem_idxRange] <;> omega

/-! ## Small helpers shared by the embedded functions -/

/-- Model of the Python expression `opt or fallback` on an optional string:
both `None` and the empty string are falsy. -/
def pyOr (a : Option String) (b : String) : String :=
  match a with
  | none => b
  | some s => if s = "" then b else s

/-- Truthiness of an optional string in Python: `None` and `""` are falsy. -/
def pyTruthyStr : Option String → Bool
  | none => false
  | some s => s ≠ ""

/-- Lowercasing as used by `str.lower()` in the sources, written over the
character list so that it reduces inside the kernel. -/
def lowerStr (s : String) : String := String.mk (s.data.map Char.toLower)

def startsWithPat : List Char → List Char → Bool
  | [], _ => true
  | _ :: _, [] => false
  | p :: ps, c :: cs => p == c && startsWithPat ps cs

def hasSubList (pat : List Char) : List Char → Bool
  | [] => startsWithPat pat []
  | c :: cs => startsWithPat pat (c :: cs) || hasSubList pat cs

/-- Model of the Python test `"child" in s.lower()`. -/
def containsChild (s : String) : Bool :=
  hasSubList "child".data ((lowerStr s).data)

/-! ## Wire data model (app/exely_client/schemas.py)

Original, provider-assigned placement indices are integers; the reservation
request uses the fresh 1-based index space, kept as naturals. -/

structure GuestPlacementRef where
  index : Int
deriving Repr, DecidableEq

structure GuestCount where
  placement : GuestPlacementRef
  count : Nat
  age : Option Nat
  ageQualifyingCode : Option String
deriving Repr, DecidableEq

structure PlacementPrice where
  index : Int
  kind : String
  code : String
deriving Repr, DecidableEq

structure RoomTypeAvailabilityInfo where
  placements : List PlacementPrice
  code : String
deriving Repr, DecidableEq

structure RatePlanAvailabilityInfo where
  code : String
deriving Repr, DecidableEq

structure DateRangeStay where
  startDate : String
  endDate : String
deriving Repr, DecidableEq

structure RoomStayAvailability where
  hotelRefCode : String
  guests : List GuestCount
  roomTypes : List RoomTypeAvailabilityInfo
  ratePlans : List RatePlanAvailabilityInfo
  stayDates : DateRangeStay
  currency : String
deriving Repr, DecidableEq

structure RoomTypeReservationPlacement where
  index : Nat
  kind : String
  code : String
deriving Repr, DecidableEq

structure GuestCountDetailAPI where
  count : Nat
  ageQualifyingCode : String
  placementIndex : Nat
  age : Option Nat
deriving Repr, DecidableEq

structure GuestInfoAPI where
  firstName : String
  lastName : String
  middleName : Option String
  citizenship : Option String
  placementIndex : Nat
deriving Repr, DecidableEq

/-! ## Tool parameter model (app/mcp_tools/schemas_llm.py) -/

structure GuestDetailLLM where
  firstName : String
  lastName : String
  middleName : Option String
  citizenship : Option String
  isChild : Bool
  age : Option Nat
deriving Repr, DecidableEq

structure CustomerDetailLLM where
  firstName : String
  lastName : String
  middleName : Option String
  email : String
  phone : String
  comment : Option String
deriving Repr, DecidableEq

structure CreateReservationToolParams where
  bookingOptionId : String
  guests : List GuestDetailLLM
  customer : CustomerDetailLLM
  guaranteeCode : String
  language : Option String
deriving Repr, DecidableEq

/-- Total declared guest capacity of an offer: the sum of the counts of its
guest-count groups (tools.py line 376; the Python guard for an empty list is
subsumed because the empty sum is zero). -/
def sumGuestCounts (gcs : List GuestCount) : Nat := (gcs.map (·.count)).sum

/-! ## Placement re-indexing (tools.py lines 387-397)

The loop walks the first room type placements, assigns fresh reservation
indices 1, 2, 3, ... and records the original placement code to fresh index
in a dict. -/

def reindexStep
    (acc : List RoomTypeReservationPlacement × List (String × Nat) × Nat)
    (pp : PlacementPrice) :
    List RoomTypeReservationPlacement × List (String × Nat) × Nat :=
  (acc.1 ++ [{ index := acc.2.2, kind := pp.kind, code := pp.code }],
   dictSet acc.2.1 pp.code acc.2.2,
   acc.2.2 + 1)

def reindexPlacements (placements : List PlacementPrice) :
    List RoomTypeReservationPlacement × List (String × Nat) :=
  let r := placements.foldl reindexStep ([], [], 1)
  (r.1, r.2.1)

theorem reindexFold_indices (ps : List PlacementPrice) :
    ∀ (r0 : List RoomTypeReservationPlacement) (m0 : List (String × Nat)) (n0 : Nat),
      (ps.foldl reindexStep (r0, m0, n0)).1.map (·.index)
        = r0.map (·.index) ++ idxRange n0 ps.length := by
  induction ps with
  | nil => intro r0 m0 n0; simp [idxRange]
  | cons pp rest ih =>
      intro r0 m0 n0
      simp only [List.foldl_cons, reindexStep, List.length_cons, idxRange]
      rw [ih]
      simp

theorem reindexFold_get_absent (ps : List PlacementPrice) :
    ∀ (r0 : List RoomTypeReservationPlacement) (m0 : List (String × Nat)) (n0 : Nat) (c : String),
      (∀ pp ∈ ps, pp.code ≠ c) →
      dictGet (ps.foldl reindexStep (r0, m0, n0)).2.1 c = dictGet m0 c := by
  induction ps with
  | nil => intro r0 m0 n0 c _; simp
  | cons pp rest ih =>
      intro r0 m0 n0 c hne
      simp only [List.foldl_cons, reindexStep]
      rw [ih _ _ _ c (fun q hq => hne q (List.mem_cons_of_mem pp hq))]
      exact dictGet_dictSet_ne m0 pp.code c n0
        (fun h => hne pp (List.mem_cons_self pp rest) (h ▸ rfl))

theorem reindexFold_coverage (ps : List PlacementPrice) :
    ∀ (r0 : List RoomTypeReservationPlacement) (m0 : List (String × Nat)) (n0 : Nat),
      ∀ pp ∈ ps, ∃ i, dictGet (ps.foldl reindexStep (r0, m0, n0)).2.1 pp.code = some i ∧
        n0 ≤ i ∧ i < n0 + ps.length := by
  induction ps with
  | nil => intro r0 m0 n0 pp hpp; simp at hpp
  | cons q rest ih =>
      intro r0 m0 n0 pp hpp
      simp only [List.foldl_cons, reindexStep]
      rcases List.mem_cons.mp hpp with hq | hmem
      · subst hq
        by_cases hc : ∃ q2 ∈ rest, q2.code = pp.code
        · obtain ⟨q2, hq2mem, hq2code⟩ := hc
          obtain ⟨i, hi, hlo, hhi⟩ :=
            ih (r0 ++ [{ index := n0, kind := pp.kind, code := pp.code }])
              (dictSet m0 pp.code n0) (n0 + 1) q2 hq2mem
          rw [hq2code] at hi
          exact ⟨i, hi, by omega, by simp only [List.length_cons]; omega⟩
        · push_neg at hc
          have := reindexFold_get_absent rest
            (r0 ++ [{ index := n0, kind := pp.kind, code := pp.code }])
            (dictSet m0 pp.code n0) (n0 + 1) pp.code hc
          refine ⟨n0, ?_, le_refl n0, by simp only [List.length_cons]; omega⟩
          rw [this]
          exact dictGet_dictSet_self m0 pp.code n0
      · obtain ⟨i, hi, hlo, hhi⟩ :=
          ih (r0 ++ [{ index := n0, kind := q.kind, code := q.code }])
            (dictSet m0 q.code n0) (n0 + 1) pp hmem
        exact ⟨i, hi, by omega, by simp only [List.length_cons]; omega⟩

theorem reindexFold_keys_nodup (ps : List PlacementPrice) :
    ∀ (r0 : List RoomTypeReservationPlacement) (m0 : List (String × Nat)) (n0 : Nat),
      (dictKeys m0).Nodup → (dictKeys (ps.foldl reindexStep (r0, m0, n0)).2.1).Nodup := by
  induction ps with
  | nil => intro r0 m0 n0 h; simpa using h
  | cons pp rest ih =>
      intro r0 m0 n0 h
      simp only [List.foldl_cons, reindexStep]
      exact ih _ _ _ (dictKeys_nodup_dictSet m0 pp.code n0 h)

theorem reindexFold_values (ps : List PlacementPrice) :
    ∀ (r0 : List RoomTypeReservationPlacement) (m0 : List (String × Nat)) (n0 : Nat),
      (∀ p ∈ m0, p.2 < n0) → (m0.map Prod.snd).Nodup →
      (∀ p ∈ (ps.foldl reindexStep (r0, m0, n0)).2.1, p.2 < n0 + ps.length) ∧
        ((ps.foldl reindexStep (r0, m0, n0)).2.1.map Prod.snd).Nodup := by
  induction ps with
  | nil =>
      intro r0 m0 n0 hb hnd
      constructor
      · intro p hp; simpa using hb p (by simpa using hp)
      · simpa using hnd
  | cons pp rest ih =>
      intro r0 m0 n0 hb hnd
      simp only [List.foldl_cons, reindexStep, List.length_cons]
      have hb2 : ∀ p ∈ dictSet m0 pp.code n0, p.2 < n0 + 1 := by
        intro p hp
        have : p ∈ m0 ∨ p = (pp.code, n0) := mem_dictSet m0 pp.code n0 p hp
        rcases this with h1 | h2
        · exact Nat.lt_succ_of_lt (hb p h1)
        · subst h2; exact Nat.lt_succ_self n0
      have hnd2 : ((dictSet m0 pp.code n0).map Prod.snd).Nodup :=
        values_nodup_dictSet m0 pp.code n0 hb hnd
      have := ih (r0 ++ [{ index := n0, kind := pp.kind, code := pp.code }])
        (dictSet m0 pp.code n0) (n0 + 1) hb2 hnd2
      refine ⟨fun p hp => ?_, this.2⟩
      have := this.1 p hp
      omega

/-! ## Guest-group aggregation (tools.py lines 399-417)

Each guest-count group of the cached offer is matched against the placement of
the first room type whose original index it references, then grouped by the
fresh reservation index.  In the source the fresh index is read from the dict
by direct indexing; the key is always present (theorem reindexFold_coverage),
so the `getD 0` default below is unreachable. -/

structure AggEntry where
  count : Nat
  ageQualifyingCode : String
  agesList : List Nat
deriving Repr, DecidableEq

abbrev AggMap := List (Nat × AggEntry)

/-- Model of `gc.age_qualifying_code or ("child" if gc.age is not None else "adult")`
(tools.py line 410). -/
def ageQCodeOf (gc : GuestCount) : String :=
  pyOr gc.ageQualifyingCode (if gc.age.isSome then "child" else "adult")

/-- One mutation of the aggregation dict entry (tools.py lines 411-417). -/
def aggUpdateEntry (e : AggEntry) (gc : GuestCount) (ageQCode : String) : AggEntry :=
  let e1 : AggEntry := { e with count := e.count + gc.count }
  let e2 : AggEntry :=
    match gc.age with
    | some a => { e1 with agesList := e1.agesList ++ List.replicate gc.count a }
    | none => e1
  if e2.ageQualifyingCode ≠ ageQCode ∧ containsChild e2.ageQualifyingCode = false then
    { e2 with ageQualifyingCode := ageQCode }
  else e2

def aggStep (m : AggMap) (residx : Nat) (gc : GuestCount) (ageQCode : String) : AggMap :=
  let e0 := (dictGet m residx).getD { count := 0, ageQualifyingCode := ageQCode, agesList := [] }
  dictSet m residx (aggUpdateEntry e0 gc ageQCode)

/-- One iteration of the loop over the cached guest-count groups; `none` models
the early error return when a group references an original placement index that
matches no placement of the first room type (tools.py lines 403-408). -/
def aggInsertStep (placements : List PlacementPrice) (codeMap : List (String × Nat))
    (acc : Option AggMap) (gc : GuestCount) : Option AggMap :=
  match acc with
  | none => none
  | some m =>
    match placements.find? (fun pp => pp.index == gc.placement.index) with
    | none => none
    | some pp => some (aggStep m ((dictGet codeMap pp.code).getD 0) gc (ageQCodeOf gc))

def aggregateGuestGroups (gcs : List GuestCount) (placements : List PlacementPrice)
    (codeMap : List (String × Nat)) : Option AggMap :=
  gcs.foldl (aggInsertStep placements codeMap) (some [])

/-! ## Building the reservation guest-count entries (tools.py lines 419-429)

Both branches of the age resolution send the first collected age; they differ
only in whether a warning is logged, which is modelled by ageWarned. -/

def ageToSend (e : AggEntry) : Option Nat :=
  if containsChild e.ageQualifyingCode && !e.agesList.isEmpty then e.agesList.head?
  else none

/-- True exactly when the source logs the differing-child-ages warning before
sending the first collected age (tools.py lines 424-426). -/
def ageWarned (e : AggEntry) : Bool :=
  containsChild e.ageQualifyingCode && !e.agesList.isEmpty &&
    !(e.agesList.dedup.length == 1)

def guestCountDetailEntry (k : Nat) (e : AggEntry) : GuestCountDetailAPI :=
  { count := e.count, ageQualifyingCode := e.ageQualifyingCode,
    placementIndex := k, age := ageToSend e }

def guestCountDetails (m : AggMap) : List GuestCountDetailAPI :=
  m.map fun kv => guestCountDetailEntry kv.1 kv.2

/-- Reservation indices whose aggregated child ages disagreed, in map order. -/
def ageWarnings (m : AggMap) : List Nat :=
  (m.filter fun kv => ageWarned kv.2).map Prod.fst

/-! ## Flat guest-assignment slot list (tools.py lines 431-441) -/

/-- Model of `next((rgc.count for rgc in api if rgc.placement_index == idx), 0)`. -/
def countFor (api : List GuestCountDetailAPI) (idx : Nat) : Nat :=
  match api.find? (fun rgc => rgc.placementIndex == idx) with
  | some rgc => rgc.count
  | none => 0

def slotsFor (api : List GuestCountDetailAPI) (rtp : RoomTypeReservationPlacement) : List Nat :=
  List.replicate (countFor api rtp.index) rtp.index

def buildSlots (resP : List RoomTypeReservationPlacement)
    (api : List GuestCountDetailAPI) : List Nat :=
  resP.foldl (fun acc rtp => acc ++ slotsFor api rtp) []

/-! ## The reservation-building core of create_exely_reservation_and_get_link
(tools.py lines 364-477)

The function only reads the offer cache (BOOKING_OPTIONS_CACHE.get); the
returned second component is the cache state after the call, which every
branch leaves untouched.  Each error constructor corresponds to one early
`return CreateReservationResult(..., status="error", ...)` site of the
source; `request` carries the assembled reservation payload that would be
sent to the provider. -/

structure ReservationRequestCore where
  hotelCode : String
  roomTypeCode : String
  placements : List RoomTypeReservationPlacement
  ratePlanCode : String
  guestCounts : List GuestCountDetailAPI
  guests : List GuestInfoAPI
  guaranteeCode : String
  currency : String
  stayDates : DateRangeStay
deriving Repr, DecidableEq

inductive CreateOutcome where
  | invalidOptionId
  | guestCountMismatch (expected supplied : Nat)
  | missingPlacementData
  | emptyGuestGroups
  | unmatchedGuestGroup
  | slotAssignmentInternalError (slots supplied : Nat)
  | missingRatePlans
  | request (req : ReservationRequestCore)
deriving Repr, DecidableEq

abbrev BookingCache := List (String × RoomStayAvailability)

def createExelyReservation (cache : BookingCache) (params : CreateReservationToolParams) :
    CreateOutcome × BookingCache :=
  match dictGet cache params.bookingOptionId with
  | none => (.invalidOptionId, cache)
  | some offer =>
    if params.guests.length ≠ sumGuestCounts offer.guests then
      (.guestCountMismatch (sumGuestCounts offer.guests) params.guests.length, cache)
    else
      match offer.roomTypes with
      | [] => (.missingPlacementData, cache)
      | rt0 :: _ =>
        if rt0.placements.isEmpty then (.missingPlacementData, cache)
        else
          let resP := (reindexPlacements rt0.placements).1
          let codeMap := (reindexPlacements rt0.placements).2
          if offer.guests.isEmpty then (.emptyGuestGroups, cache)
          else
            match aggregateGuestGroups offer.guests rt0.placements codeMap with
            | none => (.unmatchedGuestGroup, cache)
            | some m =>
              let api := guestCountDetails m
              let slots := buildSlots resP api
              if slots.length ≠ params.guests.length then
                (.slotAssignmentInternalError slots.length params.guests.length, cache)
              else
                match offer.ratePlans with
                | [] => (.missingRatePlans, cache)
                | rp0 :: _ =>
                  (.request {
                    hotelCode := offer.hotelRefCode,
                    roomTypeCode := rt0.code,
                    placements := resP,
                    ratePlanCode := rp0.code,
                    guestCounts := api,
                    guests := (params.guests.zip slots).map fun gs =>
                      { firstName := gs.1.firstName, lastName := gs.1.lastName,
                        middleName := gs.1.middleName, citizenship := gs.1.citizenship,
                        placementIndex := gs.2 },
                    guaranteeCode := params.guaranteeCode,
                    currency := offer.currency,
                    stayDates := offer.stayDates }, cache)

/-! ## Counting lemmas about the aggregation and the slot list -/

def aggTotal (m : AggMap) : Nat := (m.map fun kv => kv.2.count).sum

def countAt (m : AggMap) (i : Nat) : Nat :=
  match dictGet m i with
  | some e => e.count
  | none => 0

theorem aggUpdateEntry_count (e : AggEntry) (gc : GuestCount) (c : String) :
    (aggUpdateEntry e gc c).count = e.count + gc.count := by
  unfold aggUpdateEntry
  cases gc.age <;> dsimp <;> split <;> rfl

theorem aggTotal_dictSet_absent (m : AggMap) (k : Nat) (v : AggEntry)
    (h : dictGet m k = none) : aggTotal (dictSet m k v) = aggTotal m + v.count := by
  induction m with
  | nil => simp [dictSet, aggTotal]
  | cons kv tl ih =>
      obtain ⟨k0, e0⟩ := kv
      by_cases hk : k = k0
      · simp [dictGet, hk] at h
      · simp [dictGet, hk] at h
        simp [dictSet, hk, aggTotal] at ih ⊢
        rw [ih h]
        omega

theorem aggTotal_dictSet_present (m : AggMap) (k : Nat) (v e : AggEntry)
    (h : dictGet m k = some e) :
    aggTotal (dictSet m k v) + e.count = aggTotal m + v.count := by
  induction m with
  | nil => simp [dictGet] at h
  | cons kv tl ih =>
      obtain ⟨k0, e0⟩ := kv
      by_cases hk : k = k0
      · simp [dictGet, hk] at h
        subst h
        simp [dictSet, hk, aggTotal]
        omega
      · simp [dictGet, hk] at h
        simp [dictSet, hk, aggTotal] at ih ⊢
        have := ih h
        omega

theorem aggStep_total (m : AggMap) (k : Nat) (gc : GuestCount) (c : String) :
    aggTotal (aggStep m k gc c) = aggTotal m + gc.count := by
  unfold aggStep
  cases h : dictGet m k with
  | none =>
      rw [aggTotal_dictSet_absent m k _ h]
      simp [h, aggUpdateEntry_count]
  | some e =>
      have := aggTotal_dictSet_present m k (aggUpdateEntry e gc c) e h
      rw [aggUpdateEntry_count] at this
      simp only [h, Option.getD_some]
      omega

theorem aggregate_fold_spec (placements : List PlacementPrice) (codeMap : List (String × Nat))
    (P : Nat → Prop) (hP : ∀ pp ∈ placements, P ((dictGet codeMap pp.code).getD 0)) :
    ∀ (gcs : List GuestCount) (m0 : AggMap),
      (∀ gc ∈ gcs, (placements.find? (fun pp => pp.index == gc.placement.index)).isSome) →
      (dictKeys m0).Nodup → (∀ k ∈ dictKeys m0, P k) →
      ∃ m, gcs.foldl (aggInsertStep placements codeMap) (some m0) = some m ∧
        aggTotal m = aggTotal m0 + sumGuestCounts gcs ∧
        (dictKeys m).Nodup ∧ (∀ k ∈ dictKeys m, P k) := by
  intro gcs
  induction gcs with
  | nil =>
      intro m0 _ hnd hPk
      exact ⟨m0, rfl, by simp [sumGuestCounts], hnd, hPk⟩
  | cons gc rest ih =>
      intro m0 hfind hnd hPk
      obtain ⟨pp, hpp⟩ := Option.isSome_iff_exists.mp (hfind gc (List.mem_cons_self _ _))
      have hppmem : pp ∈ placements := List.mem_of_find?_eq_some hpp
      have hstep : aggInsertStep placements codeMap (some m0) gc
          = some (aggStep m0 ((dictGet codeMap pp.code).getD 0) gc (ageQCodeOf gc)) := by
        simp [aggInsertStep, hpp]
      have hnd1 : (dictKeys (aggStep m0 ((dictGet codeMap pp.code).getD 0) gc
          (ageQCodeOf gc))).Nodup := by
        unfold aggStep
        exact dictKeys_nodup_dictSet m0 _ _ hnd
      have hPk1 : ∀ k ∈ dictKeys (aggStep m0 ((dictGet codeMap pp.code).getD 0) gc
          (ageQCodeOf gc)), P k := by
        intro k hk
        unfold aggStep at hk
        rcases mem_dictKeys_dictSet m0 _ k _ hk with h1 | h2
        · exact hPk k h1
        · subst h2; exact hP pp hppmem
      obtain ⟨m, hm, htot, hnd2, hP2⟩ :=
        ih _ (fun gc2 h2 => hfind gc2 (List.mem_cons_of_mem _ h2)) hnd1 hPk1
      refine ⟨m, ?_, ?_, hnd2, hP2⟩
      · rw [List.foldl_cons, hstep]; exact hm
      · rw [htot, aggStep_total]
        simp [sumGuestCounts]
        omega

theorem countFor_guestCountDetails (m : AggMap) (i : Nat) :
    countFor (guestCountDetails m) i = countAt m i := by
  induction m with
  | nil => rfl
  | cons kv tl ih =>
      obtain ⟨k, e⟩ := kv
      have hgcd : guestCountDetails ((k, e) :: tl)
          = guestCountDetailEntry k e :: guestCountDetails tl := rfl
      by_cases h : k = i
      · subst h
        rw [hgcd]
        unfold countFor countAt
        rw [List.find?_cons_of_pos _ (by simp [guestCountDetailEntry])]
        simp [guestCountDetailEntry, dictGet]
      · have hfind : List.find? (fun rgc => rgc.placementIndex == i)
            (guestCountDetails ((k, e) :: tl))
            = List.find? (fun rgc => rgc.placementIndex == i) (guestCountDetails tl) := by
          rw [hgcd]
          exact List.find?_cons_of_neg _ (by simp [guestCountDetailEntry]; exact h)
        have hget : dictGet ((k, e) :: tl) i = dictGet tl i := by
          show (if i = k then some e else dictGet tl i) = dictGet tl i
          rw [if_neg (fun h2 => h h2.symm)]
        unfold countFor countAt at ih ⊢
        rw [hfind, hget]
        exact ih

theorem buildSlots_append_init (api : List GuestCountDetailAPI) :
    ∀ (l : List RoomTypeReservationPlacement) (acc : List Nat),
      l.foldl (fun a x => a ++ slotsFor api x) acc
        = acc ++ l.foldl (fun a x => a ++ slotsFor api x) [] := by
  intro l
  induction l with
  | nil => intro acc; simp
  | cons x xs ih =>
      intro acc
      simp only [List.foldl_cons]
      rw [ih (acc ++ slotsFor api x), ih ([] ++ slotsFor api x)]
      simp

theorem buildSlots_cons (api : List GuestCountDetailAPI)
    (x : RoomTypeReservationPlacement) (xs : List RoomTypeReservationPlacement) :
    buildSlots (x :: xs) api = slotsFor api x ++ buildSlots xs api := by
  unfold buildSlots
  rw [List.foldl_cons]
  simpa using buildSlots_append_init api xs ([] ++ slotsFor api x)

theorem buildSlots_length (resP : List RoomTypeReservationPlacement)
    (api : List GuestCountDetailAPI) :
    (buildSlots resP api).length = (resP.map fun rtp => countFor api rtp.index).sum := by
  induction resP with
  | nil => rfl
  | cons x xs ih =>
      rw [buildSlots_cons]
      simp [slotsFor, ih]

theorem count_replicate_nat (n j i : Nat) :
    (List.replicate n j).count i = if i = j then n else 0 := by
  induction n with
  | zero => simp
  | succ n ih =>
      rw [List.replicate_succ, List.count_cons, ih]
      by_cases h : i = j <;> simp [h] <;> omega

theorem buildSlots_count (resP : List RoomTypeReservationPlacement)
    (api : List GuestCountDetailAPI) (i : Nat) :
    (buildSlots resP api).count i
      = (resP.map fun rtp => if i = rtp.index then countFor api rtp.index else 0).sum := by
  induction resP with
  | nil => rfl
  | cons x xs ih =>
      rw [buildSlots_cons, List.count_append, ih]
      simp [slotsFor, count_replicate_nat]

theorem sum_single_of_nodup (L : List Nat) (f : Nat → Nat) (i : Nat)
    (hnd : L.Nodup) (hmem : i ∈ L) :
    (L.map fun j => if i = j then f j else 0).sum = f i := by
  induction L with
  | nil => simp at hmem
  | cons a l ih =>
      simp only [List.map_cons, List.sum_cons]
      rw [List.nodup_cons] at hnd
      rcases List.mem_cons.mp hmem with h | h
      · subst h
        rw [if_pos rfl]
        have hz : (l.map fun j => if i = j then f j else 0).sum = 0 := by
          apply List.sum_eq_zero
          intro x hx
          obtain ⟨j, hj, hje⟩ := List.mem_map.mp hx
          rw [← hje, if_neg (fun heq => hnd.1 (by rw [heq]; exact hj))]
        omega
      · have hne : i ≠ a := fun heq => hnd.1 (by rw [← heq]; exact h)
        rw [if_neg hne, ih hnd.2 h]
        omega

theorem sum_countAt_eq_aggTotal :
    ∀ (m : AggMap) (L : List Nat),
      (dictKeys m).Nodup → L.Nodup → (∀ k ∈ dictKeys m, k ∈ L) →
      (L.map (countAt m)).sum = aggTotal m := by
  intro m
  induction m with
  | nil =>
      intro L _ _ _
      have : ∀ x ∈ L.map (countAt []), x = 0 := by
        intro x hx
        obtain ⟨j, _, hje⟩ := List.mem_map.mp hx
        rw [← hje]; rfl
      rw [List.sum_eq_zero this]; rfl
  | cons kv tl ih =>
      obtain ⟨k, e⟩ := kv
      intro L hndm hndL hsub
      rw [dictKeys, List.map_cons, List.nodup_cons] at hndm
      have hkL : k ∈ L := hsub k (List.mem_cons_self _ _)
      have hperm : List.Perm L (k :: L.erase k) := List.perm_cons_erase hkL
      rw [(hperm.map (countAt ((k, e) :: tl))).sum_eq]
      simp only [List.map_cons, List.sum_cons]
      have hhead : countAt ((k, e) :: tl) k = e.count := by simp [countAt, dictGet]
      have htail : ∀ j ∈ L.erase k, countAt ((k, e) :: tl) j = countAt tl j := by
        intro j hj
        have hjk : j ≠ k := ((List.Nodup.mem_erase_iff hndL).mp hj).1
        simp [countAt, dictGet, hjk]
      have hmapeq : (L.erase k).map (countAt ((k, e) :: tl)) = (L.erase k).map (countAt tl) :=
        List.map_congr_left htail
      have hsub2 : ∀ k2 ∈ dictKeys tl, k2 ∈ L.erase k := by
        intro k2 hk2
        have hk2L : k2 ∈ L := hsub k2 (List.mem_cons_of_mem _ hk2)
        have hk2ne : k2 ≠ k := by
          intro heq
          apply hndm.1
          rw [← heq]
          simpa [dictKeys] using hk2
        exact (List.mem_erase_of_ne hk2ne).mpr hk2L
      rw [hhead, hmapeq,
        ih (L.erase k) (by simpa [dictKeys] using hndm.2) (hndL.erase k) hsub2]
      simp [aggTotal]

/-! ## Claims about the availability-to-reservation mapper -/

/-- Claim C1: for every cached offer, when the supplied guest list length
differs from the total declared capacity of the offer, the reservation
build fails with the guest-count-mismatch error carrying the two counts,
without constructing any payload, and the offer cache is untouched, so the
same option id still resolves to the same offer afterwards. -/
theorem claim_C1_guest_count_mismatch (cache : BookingCache)
    (params : CreateReservationToolParams) (offer : RoomStayAvailability)
    (hget : dictGet cache params.bookingOptionId = some offer)
    (hmis : params.guests.length ≠ sumGuestCounts offer.guests) :
    (createExelyReservation cache params).1
        = CreateOutcome.guestCountMismatch (sumGuestCounts offer.guests) params.guests.length ∧
    dictGet (createExelyReservation cache params).2 params.bookingOptionId = some offer := by
  have h1 : createExelyReservation cache params
      = (CreateOutcome.guestCountMismatch (sumGuestCounts offer.guests)
          params.guests.length, cache) := by
    unfold createExelyReservation
    rw [hget]
    simp [hmis]
  rw [h1]
  exact ⟨rfl, hget⟩

def offerW : RoomStayAvailability :=
  { hotelRefCode := "h1",
    guests := [{ placement := { index := 3 }, count := 2, age := none,
                 ageQualifyingCode := some "adult" }],
    roomTypes := [{ placements := [{ index := 3, kind := "adult", code := "PA" }],
                    code := "RT1" }],
    ratePlans := [{ code := "RP1" }],
    stayDates := { startDate := "2026-06-01 15:00:00", endDate := "2026-06-03 12:00:00" },
    currency := "USD" }

def cacheW : BookingCache := [("opt-1", offerW)]

def guestW : GuestDetailLLM :=
  { firstName := "Ivan", lastName := "Petrov", middleName := none, citizenship := none,
    isChild := false, age := none }

def customerW : CustomerDetailLLM :=
  { firstName := "Ivan", lastName := "Petrov", middleName := none,
    email := "ivan@example.com", phone := "+100000000", comment := none }

def paramsW : CreateReservationToolParams :=
  { bookingOptionId := "opt-1", guests := [guestW], customer := customerW,
    guaranteeCode := "g1", language := none }

theorem claim_C1_witness :
    dictGet cacheW paramsW.bookingOptionId = some offerW ∧
    paramsW.guests.length ≠ sumGuestCounts offerW.guests ∧
    ((createExelyReservation cacheW paramsW).1
        = CreateOutcome.guestCountMismatch (sumGuestCounts offerW.guests)
            paramsW.guests.length ∧
      dictGet (createExelyReservation cacheW paramsW).2 paramsW.bookingOptionId
        = some offerW) :=
  ⟨by decide, by decide,
   claim_C1_guest_count_mismatch cacheW paramsW offerW (by decide) (by decide)⟩

/-- Claim C2: for a non-empty placements list of the first room type, the
re-indexing produces the contiguous 1-based index list 1..N, the original
code to fresh index map has pairwise distinct keys and pairwise distinct
values, and every original placement code is mapped to some fresh index in
1..N. -/
theorem claim_C2_reindex_bijection (ps : List PlacementPrice) (hne : ps ≠ []) :
    ((reindexPlacements ps).1.map (·.index) = idxRange 1 ps.length) ∧
    (dictKeys (reindexPlacements ps).2).Nodup ∧
    ((reindexPlacements ps).2.map Prod.snd).Nodup ∧
    (∀ pp ∈ ps, ∃ i, dictGet (reindexPlacements ps).2 pp.code = some i ∧
      i ∈ idxRange 1 ps.length) := by
  refine ⟨?_, ?_, ?_, ?_⟩
  · have := reindexFold_indices ps [] [] 1
    simpa [reindexPlacements] using this
  · have := reindexFold_keys_nodup ps [] [] 1 (by simp [dictKeys])
    simpa [reindexPlacements] using this
  · have := reindexFold_values ps [] [] 1 (by simp) (by simp)
    simpa [reindexPlacements] using this.2
  · intro pp hpp
    obtain ⟨i, hi, hlo, hhi⟩ := reindexFold_coverage ps [] [] 1 pp hpp
    exact ⟨i, by simpa [reindexPlacements] using hi,
      (mem_idxRange i 1 ps.length).mpr ⟨hlo, hhi⟩⟩

def placementsW : List PlacementPrice :=
  [{ index := 3, kind := "adult", code := "PA" },
   { index := 7, kind := "child", code := "PC" }]

theorem claim_C2_witness :
    placementsW ≠ [] ∧
    (((reindexPlacements placementsW).1.map (·.index)
        = idxRange 1 placementsW.length) ∧
      (dictKeys (reindexPlacements placementsW).2).Nodup ∧
      ((reindexPlacements placementsW).2.map Prod.snd).Nodup ∧
      (∀ pp ∈ placementsW, ∃ i,
        dictGet (reindexPlacements placementsW).2 pp.code = some i ∧
        i ∈ idxRange 1 placementsW.length)) :=
  ⟨by decide, claim_C2_reindex_bijection placementsW (by decide)⟩

/-- Claim C5: for an offer whose guest-count groups all match a placement of
the first room type, the aggregation succeeds and the flat guest-assignment
slot list has exactly as many entries as the total declared guest capacity,
with each fresh placement index occurring exactly as many times as the
aggregated guest count sent for that placement. -/
theorem claim_C5_slot_list (offer : RoomStayAvailability) (rt0 : RoomTypeAvailabilityInfo)
    (rts : List RoomTypeAvailabilityInfo) (hrt : offer.roomTypes = rt0 :: rts)
    (hpl : rt0.placements ≠ [])
    (hmatch : ∀ gc ∈ offer.guests,
      (rt0.placements.find? (fun pp => pp.index == gc.placement.index)).isSome) :
    ∃ m, aggregateGuestGroups offer.guests rt0.placements (reindexPlacements rt0.placements).2
        = some m ∧
      (buildSlots (reindexPlacements rt0.placements).1 (guestCountDetails m)).length
        = sumGuestCounts offer.guests ∧
      ∀ rtp ∈ (reindexPlacements rt0.placements).1,
        (buildSlots (reindexPlacements rt0.placements).1 (guestCountDetails m)).count rtp.index
          = countFor (guestCountDetails m) rtp.index := by
  have hcov : ∀ pp ∈ rt0.placements,
      ∃ i, dictGet (reindexPlacements rt0.placements).2 pp.code = some i ∧
        1 ≤ i ∧ i < 1 + rt0.placements.length := by
    intro pp hpp
    obtain ⟨i, hi, hlo, hhi⟩ := reindexFold_coverage rt0.placements [] [] 1 pp hpp
    exact ⟨i, by simpa [reindexPlacements] using hi, hlo, hhi⟩
  have hP : ∀ pp ∈ rt0.placements,
      ((dictGet (reindexPlacements rt0.placements).2 pp.code).getD 0)
        ∈ idxRange 1 rt0.placements.length := by
    intro pp hpp
    obtain ⟨i, hi, hlo, hhi⟩ := hcov pp hpp
    rw [hi]
    exact (mem_idxRange i 1 rt0.placements.length).mpr ⟨hlo, hhi⟩
  obtain ⟨m, hm, htot, hnd, hkeys⟩ :=
    aggregate_fold_spec rt0.placements (reindexPlacements rt0.placements).2
      (fun k => k ∈ idxRange 1 rt0.placements.length) hP offer.guests []
      hmatch (by simp [dictKeys]) (by simp [dictKeys])
  have hidx : (reindexPlacements rt0.placements).1.map (·.index)
      = idxRange 1 rt0.placements.length := by
    have := reindexFold_indices rt0.placements [] [] 1
    simpa [reindexPlacements] using this
  refine ⟨m, hm, ?_, ?_⟩
  · rw [buildSlots_length]
    have hmm : ((reindexPlacements rt0.placements).1.map
          fun rtp => countFor (guestCountDetails m) rtp.index)
        = ((reindexPlacements rt0.placements).1.map (·.index)).map
            (fun i => countFor (guestCountDetails m) i) := by
      rw [List.map_map]
      rfl
    rw [hmm, hidx]
    have hcongr : (idxRange 1 rt0.placements.length).map
          (fun i => countFor (guestCountDetails m) i)
        = (idxRange 1 rt0.placements.length).map (countAt m) :=
      List.map_congr_left (fun i _ => countFor_guestCountDetails m i)
    rw [hcongr,
      sum_countAt_eq_aggTotal m (idxRange 1 rt0.placements.length) hnd
        (idxRange_nodup 1 rt0.placements.length) hkeys, htot]
    simp [aggTotal]
  · intro rtp hrtp
    have hmemi : rtp.index ∈ idxRange 1 rt0.placements.length := by
      rw [← hidx]
      exact List.mem_map_of_mem _ hrtp
    rw [buildSlots_count]
    have hmm2 : ((reindexPlacements rt0.placements).1.map
          fun r2 => if rtp.index = r2.index
            then countFor (guestCountDetails m) r2.index else 0)
        = ((reindexPlacements rt0.placements).1.map (·.index)).map
            (fun j => if rtp.index = j then countFor (guestCountDetails m) j else 0) := by
      rw [List.map_map]
      rfl
    rw [hmm2, hidx,
      sum_single_of_nodup (idxRange 1 rt0.placements.length) _ rtp.index
        (idxRange_nodup 1 rt0.placements.length) hmemi]

def rtC5 : RoomTypeAvailabilityInfo :=
  { placements := [{ index := 3, kind := "adult", code := "PA" },
                   { index := 7, kind := "child", code := "PC" }],
    code := "RT1" }

def offerC5 : RoomStayAvailability :=
  { hotelRefCode := "h1",
    guests := [{ placement := { index := 3 }, count := 2, age := none,
                 ageQualifyingCode := some "adult" },
               { placement := { index := 7 }, count := 1, age := some 5,
                 ageQualifyingCode := some "child" }],
    roomTypes := [rtC5],
    ratePlans := [{ code := "RP1" }],
    stayDates := { startDate := "2026-06-01 15:00:00", endDate := "2026-06-03 12:00:00" },
    currency := "USD" }

theorem claim_C5_witness :
    offerC5.roomTypes = rtC5 :: [] ∧
    rtC5.placements ≠ [] ∧
    (∀ gc ∈ offerC5.guests,
      (rtC5.placements.find? (fun pp => pp.index == gc.placement.index)).isSome) ∧
    (∃ m, aggregateGuestGroups offerC5.guests rtC5.placements
        (reindexPlacements rtC5.placements).2 = some m ∧
      (buildSlots (reindexPlacements rtC5.placements).1 (guestCountDetails m)).length
        = sumGuestCounts offerC5.guests ∧
      ∀ rtp ∈ (reindexPlacements rtC5.placements).1,
        (buildSlots (reindexPlacements rtC5.placements).1 (guestCountDetails m)).count rtp.index
          = countFor (guestCountDetails m) rtp.index) :=
  ⟨rfl, by decide, by decide,
   claim_C5_slot_list offerC5 rtC5 [] rfl (by decide) (by decide)⟩

/-- Claim C8: when an aggregated guest-count entry has a child qualifying
code and carries at least two distinct collected child ages, the guest-count
detail sent for that placement uses the first collected age, and the
placement index is recorded among the logged age warnings. -/
theorem claim_C8_first_age_and_warning (m : AggMap) (k : Nat) (e : AggEntry)
    (hmem : (k, e) ∈ m) (hchild : containsChild e.ageQualifyingCode = true)
    (hdiff : 2 ≤ e.agesList.dedup.length) :
    ∃ a rest, e.agesList = a :: rest ∧
      guestCountDetailEntry k e ∈ guestCountDetails m ∧
      (guestCountDetailEntry k e).age = some a ∧
      k ∈ ageWarnings m := by
  have hne : e.agesList ≠ [] := by
    intro h
    rw [h] at hdiff
    simp [List.dedup] at hdiff
  obtain ⟨a, rest, hal⟩ := List.exists_cons_of_ne_nil hne
  have hlen : e.agesList.dedup.length ≠ 1 := by omega
  refine ⟨a, rest, hal, List.mem_map_of_mem _ hmem, ?_, ?_⟩
  · show ageToSend e = some a
    simp [ageToSend, hchild, hal]
  · have hwarn : ageWarned e = true := by
      simp [ageWarned, hchild, hal, hlen]
      rw [← hal]
      simpa using hlen
    have hfil : (k, e) ∈ m.filter fun kv => ageWarned kv.2 :=
      List.mem_filter.mpr ⟨hmem, by simpa using hwarn⟩
    exact List.mem_map_of_mem Prod.fst hfil

def entryC8 : AggEntry := { count := 2, ageQualifyingCode := "child", agesList := [5, 7] }

def aggMapC8 : AggMap := [(1, entryC8)]

theorem claim_C8_witness :
    (1, entryC8) ∈ aggMapC8 ∧
    containsChild entryC8.ageQualifyingCode = true ∧
    2 ≤ entryC8.agesList.dedup.length ∧
    (∃ a rest, entryC8.agesList = a :: rest ∧
      guestCountDetailEntry 1 entryC8 ∈ guestCountDetails aggMapC8 ∧
      (guestCountDetailEntry 1 entryC8).age = some a ∧
      1 ∈ ageWarnings aggMapC8) :=
  ⟨by decide, by decide, by decide,
   claim_C8_first_age_and_warning aggMapC8 1 entryC8 (by decide) (by decide) (by decide)⟩

/-! ## Capacity filtering before caching search offers
(tools.py lines 286-302, get_exely_booking_options)

The loop over the processed room stays skips a stay whose rate-plan list is
empty, skips a stay whose total capacity is below the requested guest count,
and stores every remaining stay in BOOKING_OPTIONS_CACHE under a freshly
generated option id.  cachedRoomStays is the list of stays that reach the
cache-store statement, in loop order. -/

def requestedTotalGuests (numAdults : Nat) (childrenAges : List Nat) : Nat :=
  numAdults + childrenAges.length

def roomStayCapacity (rs : RoomStayAvailability) : Nat := sumGuestCounts rs.guests

def cacheEligible (requested : Nat) (rs : RoomStayAvailability) : Bool :=
  if rs.ratePlans = [] then false
  else if roomStayCapacity rs < requested then false
  else true

def cachedRoomStays (numAdults : Nat) (childrenAges : List Nat)
    (stays : List RoomStayAvailability) : List RoomStayAvailability :=
  stays.filter (cacheEligible (requestedTotalGuests numAdults childrenAges))

theorem cacheEligible_iff (r : Nat) (rs : RoomStayAvailability) :
    cacheEligible r rs = true ↔ rs.ratePlans ≠ [] ∧ r ≤ roomStayCapacity rs := by
  unfold cacheEligible
  by_cases h1 : rs.ratePlans = []
  · simp [h1]
  · by_cases h2 : roomStayCapacity rs < r
    · simp [h1, h2] <;> omega
    · simp [h1, h2] <;> omega

def noRatePlanStay : RoomStayAvailability :=
  { hotelRefCode := "h1",
    guests := [{ placement := { index := 1 }, count := 5, age := none,
                 ageQualifyingCode := some "adult" }],
    roomTypes := [{ placements := [{ index := 1, kind := "adult", code := "P1" }],
                    code := "RT1" }],
    ratePlans := [],
    stayDates := { startDate := "2026-06-01 15:00:00", endDate := "2026-06-02 12:00:00" },
    currency := "USD" }

/-- Claim C10, counterexample: a room stay with strictly larger capacity than
the requested guest count but an empty rate-plan list is not admitted to the
offer cache, so admission is not implied by capacity alone. -/
theorem claim_C10_counterexample :
    requestedTotalGuests 2 [] < roomStayCapacity noRatePlanStay ∧
    cachedRoomStays 2 [] [noRatePlanStay] = [] := by
  decide

/-- Claim C10, amended: a room stay is stored into the offer cache exactly
when it survives the search filtering with a non-empty rate-plan list and its
total declared capacity is at least the requested guest count; capacity may
strictly exceed the request. -/
theorem claim_C10_admission (numAdults : Nat) (childrenAges : List Nat)
    (stays : List RoomStayAvailability) (rs : RoomStayAvailability) :
    rs ∈ cachedRoomStays numAdults childrenAges stays ↔
      rs ∈ stays ∧ rs.ratePlans ≠ [] ∧
        requestedTotalGuests numAdults childrenAges ≤ roomStayCapacity rs := by
  rw [cachedRoomStays, List.mem_filter, cacheEligible_iff]

/-! ## Hotel metadata cache (tools.py lines 52-101, get_hotel_details_from_api)

The cache stores the model dump of an already validated HotelInfoHotelDetail
together with a float timestamp, so in the source the re-validation of a
fresh cache hit always succeeds and the timestamp is always a float; those
two defensive branches are therefore unreachable for states produced by this
function and are not modelled.  The third component of the result counts the
calls made to client.get_hotel_info during the invocation. -/

structure HotelInfoHotelDetail where
  code : String
  name : String
deriving Repr, DecidableEq

structure HotelCacheEntry where
  detail : HotelInfoHotelDetail
  cachedAtTs : Int
deriving Repr, DecidableEq

inductive HotelInfoFetchOutcome where
  | apiError
  | noHotels
  | firstInvalid
  | firstValid (d : HotelInfoHotelDetail)
deriving Repr, DecidableEq

abbrev HotelInfoCache := List (String × HotelCacheEntry)

def hotelInfoFetchPath (now : Int) (cache : HotelInfoCache) (hotelCode : String)
    (fetch : HotelInfoFetchOutcome) : Option HotelInfoHotelDetail × HotelInfoCache × Nat :=
  match fetch with
  | .firstValid d => (some d, dictSet cache hotelCode { detail := d, cachedAtTs := now }, 1)
  | .apiError => (none, cache, 1)
  | .noHotels => (none, cache, 1)
  | .firstInvalid => (none, cache, 1)

def getHotelDetailsFromApi (now : Int) (cache : HotelInfoCache) (hotelCode : String)
    (fetch : HotelInfoFetchOutcome) : Option HotelInfoHotelDetail × HotelInfoCache × Nat :=
  match dictGet cache hotelCode with
  | some entry =>
      if now - entry.cachedAtTs < 3600 then (some entry.detail, cache, 0)
      else hotelInfoFetchPath now (dictRemove cache hotelCode) hotelCode fetch
  | none => hotelInfoFetchPath now cache hotelCode fetch

/-- Claim C4: a cache hit younger than one hour returns the stored metadata
with zero provider calls and leaves the cache unchanged; a cache hit one hour
old or older is evicted and triggers exactly one provider call, any metadata
returned comes from that fetch, and any entry stored afterwards carries the
fresh timestamp — stale data is never served. -/
theorem claim_C4_metadata_ttl (now : Int) (cache : HotelInfoCache) (hotelCode : String)
    (fetch : HotelInfoFetchOutcome) (entry : HotelCacheEntry)
    (hnd : (dictKeys cache).Nodup)
    (hget : dictGet cache hotelCode = some entry) :
    (now - entry.cachedAtTs < 3600 →
      getHotelDetailsFromApi now cache hotelCode fetch = (some entry.detail, cache, 0)) ∧
    (3600 ≤ now - entry.cachedAtTs →
      (getHotelDetailsFromApi now cache hotelCode fetch).2.2 = 1 ∧
      (∀ d, (getHotelDetailsFromApi now cache hotelCode fetch).1 = some d →
        fetch = HotelInfoFetchOutcome.firstValid d) ∧
      (∀ e2, dictGet (getHotelDetailsFromApi now cache hotelCode fetch).2.1 hotelCode
          = some e2 → e2.cachedAtTs = now)) := by
  constructor
  · intro hfresh
    unfold getHotelDetailsFromApi
    rw [hget]
    simp [hfresh]
  · intro hstale
    have hnotlt : ¬ (now - entry.cachedAtTs < 3600) := not_lt.mpr hstale
    have heq : getHotelDetailsFromApi now cache hotelCode fetch
        = hotelInfoFetchPath now (dictRemove cache hotelCode) hotelCode fetch := by
      unfold getHotelDetailsFromApi
      rw [hget]
      simp [hnotlt]
    have hrm : dictGet (dictRemove cache hotelCode) hotelCode = none :=
      dictGet_dictRemove_self cache hotelCode hnd
    rw [heq]
    cases fetch with
    | firstValid d =>
        refine ⟨rfl, ?_, ?_⟩
        · intro d2 hd2
          have hdd : d = d2 := by simpa [hotelInfoFetchPath] using hd2
          rw [hdd]
        · intro e2 he2
          simp only [hotelInfoFetchPath] at he2
          rw [dictGet_dictSet_self] at he2
          have := Option.some.inj he2
          rw [← this]
    | apiError =>
        refine ⟨rfl, ?_, ?_⟩
        · intro d hd
          simp [hotelInfoFetchPath] at hd
        · intro e2 he2
          simp only [hotelInfoFetchPath] at he2
          rw [hrm] at he2
          cases he2
    | noHotels =>
        refine ⟨rfl, ?_, ?_⟩
        · intro d hd
          simp [hotelInfoFetchPath] at hd
        · intro e2 he2
          simp only [hotelInfoFetchPath] at he2
          rw [hrm] at he2
          cases he2
    | firstInvalid =>
        refine ⟨rfl, ?_, ?_⟩
        · intro d hd
          simp [hotelInfoFetchPath] at hd
        · intro e2 he2
          simp only [hotelInfoFetchPath] at he2
          rw [hrm] at he2
          cases he2

def entryC4 : HotelCacheEntry :=
  { detail := { code := "h1", name := "Grand Hotel" }, cachedAtTs := 1000 }

def cacheC4 : HotelInfoCache := [("h1", entryC4)]

theorem claim_C4_witness :
    ((2000 : Int) - entryC4.cachedAtTs < 3600) ∧
    getHotelDetailsFromApi 2000 cacheC4 "h1" HotelInfoFetchOutcome.apiError
      = (some entryC4.detail, cacheC4, 0) ∧
    ((3600 : Int) ≤ 99999 - entryC4.cachedAtTs) ∧
    (getHotelDetailsFromApi 99999 cacheC4 "h1" HotelInfoFetchOutcome.apiError).2.2 = 1 :=
  ⟨by decide,
   (claim_C4_metadata_ttl 2000 cacheC4 "h1" HotelInfoFetchOutcome.apiError entryC4
      (by decide) (by decide)).1 (by decide),
   by decide,
   ((claim_C4_metadata_ttl 99999 cacheC4 "h1" HotelInfoFetchOutcome.apiError entryC4
      (by decide) (by decide)).2 (by decide)).1⟩

/-! ## Provider client error normalization (app/exely_client/client.py)

requestRaw models the shared _request helper: a network failure raises, then
raise_for_status raises on any status of 400 or above, then a body that is
not valid JSON raises; otherwise the parsed body is returned.  The errors
field of ParsedBody is the application-level errors array of a body, and
schemaValid stands for whether pydantic validation of the success schema
accepts the body.  get_hotel_info returns the raw parsed body, only logging
any embedded errors array (client.py lines 204-211); get_hotel_availability
validates the schema, whose errors field is itself part of the schema, and
returns embedded errors in-band; create_hotel_reservation and
cancel_hotel_reservation explicitly raise on a non-empty embedded errors
array (client.py lines 266-282 and 318-333). -/

structure ExelyApiError where
  statusCode : Option Nat
  message : String
deriving Repr, DecidableEq

structure ErrorDetailAPI where
  errorCode : String
  message : String
deriving Repr, DecidableEq

structure ParsedBody where
  errors : List ErrorDetailAPI
  schemaValid : Bool
deriving Repr, DecidableEq

inductive ResponseBody where
  | jsonBody (b : ParsedBody)
  | notJson (raw : String)
deriving Repr, DecidableEq

inductive HttpOutcome where
  | networkError (msg : String)
  | httpResponse (status : Nat) (body : ResponseBody)
deriving Repr, DecidableEq

def requestRaw : HttpOutcome → Except ExelyApiError ParsedBody
  | .networkError msg =>
      .error { statusCode := none, message := "Network request failed: " ++ msg }
  | .httpResponse status body =>
      if 400 ≤ status then
        .error { statusCode := some status, message := "API request failed with status" }
      else
        match body with
        | .notJson _ =>
            .error { statusCode := some status, message := "response was not valid JSON" }
        | .jsonBody b => .ok b

def getHotelInfoClient (o : HttpOutcome) : Except ExelyApiError ParsedBody :=
  requestRaw o

def getHotelAvailabilityClient (o : HttpOutcome) : Except ExelyApiError ParsedBody :=
  match requestRaw o with
  | .error e => .error e
  | .ok b =>
      if b.schemaValid then .ok b
      else .error { statusCode := some 200, message := "validation failed" }

def createHotelReservationClient (o : HttpOutcome) : Except ExelyApiError ParsedBody :=
  match requestRaw o with
  | .error e => .error e
  | .ok b =>
      if b.errors ≠ [] then
        .error { statusCode := some 400, message := "application-level errors in 200 OK" }
      else if b.schemaValid then .ok b
      else .error { statusCode := some 200, message := "validation failed" }

def cancelHotelReservationClient (o : HttpOutcome) : Except ExelyApiError ParsedBody :=
  match requestRaw o with
  | .error e => .error e
  | .ok b =>
      if b.errors ≠ [] then
        .error { statusCode := some 400, message := "application-level errors in 200 OK" }
      else if b.schemaValid then .ok b
      else .error { statusCode := some 200, message := "validation failed" }

def isApiError (r : Except ExelyApiError ParsedBody) : Bool :=
  match r with
  | .error _ => true
  | .ok _ => false

def appErrorBody : ParsedBody :=
  { errors := [{ errorCode := "400", message := "application error" }], schemaValid := true }

/-- Claim C6, counterexample: a 200-OK availability response that embeds an
application-level errors array is returned as a success value with the errors
carried in-band, and the raw hotel-info fetch behaves the same way, so the
normalization into the exception kind is not uniform across the four
operations. -/
theorem claim_C6_counterexample :
    getHotelAvailabilityClient (.httpResponse 200 (.jsonBody appErrorBody))
      = .ok appErrorBody ∧
    getHotelInfoClient (.httpResponse 200 (.jsonBody appErrorBody))
      = .ok appErrorBody ∧
    appErrorBody.errors ≠ [] := by
  refine ⟨rfl, rfl, by decide⟩

/-- Claim C6, amended: network failures, HTTP statuses of 400 and above, and
non-JSON bodies are normalized into the single exception kind for all four
operations; an application-level errors array inside a 200-OK body is
additionally normalized only for reserve and cancel, while search returns it
inside the validated response and the metadata fetch returns the raw body for
the caller to inspect. -/
theorem claim_C6_normalization :
    (∀ msg : String,
      isApiError (getHotelAvailabilityClient (.networkError msg)) = true ∧
      isApiError (createHotelReservationClient (.networkError msg)) = true ∧
      isApiError (cancelHotelReservationClient (.networkError msg)) = true ∧
      isApiError (getHotelInfoClient (.networkError msg)) = true) ∧
    (∀ (st : Nat) (body : ResponseBody), 400 ≤ st →
      isApiError (getHotelAvailabilityClient (.httpResponse st body)) = true ∧
      isApiError (createHotelReservationClient (.httpResponse st body)) = true ∧
      isApiError (cancelHotelReservationClient (.httpResponse st body)) = true ∧
      isApiError (getHotelInfoClient (.httpResponse st body)) = true) ∧
    (∀ raw : String,
      isApiError (getHotelAvailabilityClient (.httpResponse 200 (.notJson raw))) = true ∧
      isApiError (createHotelReservationClient (.httpResponse 200 (.notJson raw))) = true ∧
      isApiError (cancelHotelReservationClient (.httpResponse 200 (.notJson raw))) = true ∧
      isApiError (getHotelInfoClient (.httpResponse 200 (.notJson raw))) = true) ∧
    (∀ b : ParsedBody, b.errors ≠ [] →
      isApiError (createHotelReservationClient (.httpResponse 200 (.jsonBody b))) = true ∧
      isApiError (cancelHotelReservationClient (.httpResponse 200 (.jsonBody b))) = true) := by
  refine ⟨?_, ?_, ?_, ?_⟩
  · intro msg
    exact ⟨rfl, rfl, rfl, rfl⟩
  · intro st body h
    simp [getHotelAvailabilityClient, createHotelReservationClient,
      cancelHotelReservationClient, getHotelInfoClient, requestRaw, h, isApiError]
  · intro raw
    exact ⟨rfl, rfl, rfl, rfl⟩
  · intro b hb
    have h1 : requestRaw (.httpResponse 200 (.jsonBody b)) = .ok b := rfl
    constructor
    · simp [createHotelReservationClient, h1, hb, isApiError]
    · simp [cancelHotelReservationClient, h1, hb, isApiError]

theorem claim_C6_witness :
    (400 ≤ 503) ∧
    isApiError (getHotelAvailabilityClient (.httpResponse 503 (.notJson "bad gateway")))
      = true ∧
    appErrorBody.errors ≠ [] ∧
    isApiError (createHotelReservationClient (.httpResponse 200 (.jsonBody appErrorBody)))
      = true :=
  ⟨by decide,
   (claim_C6_normalization.2.1 503 (.notJson "bad gateway") (by decide)).1,
   by decide,
   (claim_C6_normalization.2.2.2 appErrorBody (by decide)).1⟩

/-! ## Session state of the Telegram bot (telegram_bot.py)

The per-user state dict is modelled by BotSession; action None is idle.
contextHotelInfo and selectedOptionDetails model the presence of the
corresponding context dicts, and currentSearchOptionsDetails keeps the
option ids of the displayed search results. -/

inductive BotAction where
  | idle
  | startCommand
  | findhotelCommand
  | awaitingClarification
  | awaitingOptionChoice
  | awaitingBookingDetails
deriving Repr, DecidableEq

structure BotSession where
  action : BotAction
  selectedOptionId : Option String
  selectedGuaranteeCode : Option String
  contextCheckInDate : Option String
  contextCheckOutDate : Option String
  contextNumAdults : Option Nat
  contextChildrenAges : List Nat
  contextCustomerInfo : Option CustomerDetailLLM
  contextHotelInfo : Bool
  currentSearchOptionsDetails : List String
  selectedOptionDetails : Bool
deriving Repr, DecidableEq

/-- telegram_bot.py lines 110-119. -/
def resetUserActionAndSearchContext (s : BotSession) : BotSession :=
  { s with
    action := BotAction.idle,
    currentSearchOptionsDetails := [],
    selectedOptionId := none,
    selectedGuaranteeCode := none,
    selectedOptionDetails := false }

/-- telegram_bot.py lines 121-133. -/
def resetFullSearchParameters (s : BotSession) (resetHotelInfo : Bool) : BotSession :=
  let s1 := { s with
    contextCheckInDate := none,
    contextCheckOutDate := none,
    contextNumAdults := none,
    contextChildrenAges := [],
    contextCustomerInfo := none }
  if resetHotelInfo then { s1 with contextHotelInfo := false } else s1

structure CreateReservationResult where
  bookingNumber : String
  status : String
  cancellationCode : String
  paymentUrl : Option String
  orderUrl : Option String
  errorMessage : Option String
deriving Repr, DecidableEq

/-- Shape of every mapper error return in tools.py, in particular the
guest-count-mismatch return at line 385 (the Russian message text is stood in
for by the argument). -/
def errorReservationResult (msg : String) : CreateReservationResult :=
  { bookingNumber := "", status := "error", cancellationCode := "",
    paymentUrl := none, orderUrl := none, errorMessage := some msg }

def reservationErrorStatuses : List String :=
  ["error", "failed", "error_api", "error_internal", "error_unexpected_response", "cancelled"]

/-- Session effect of the CreateReservationResult branch of the turn handler
(telegram_bot.py lines 587-654): on a non-error status the search and
selection context is fully reset; in every case the action ends as idle
(line 654). -/
def handleCreateReservationResult (s : BotSession) (res : CreateReservationResult) :
    BotSession :=
  let s1 := if lowerStr res.status ∈ reservationErrorStatuses then s
            else resetFullSearchParameters (resetUserActionAndSearchContext s) true
  { s1 with action := BotAction.idle }

def sessionC7 : BotSession :=
  { action := BotAction.awaitingBookingDetails, selectedOptionId := some "opt-1",
    selectedGuaranteeCode := some "g1", contextCheckInDate := some "2026-06-01",
    contextCheckOutDate := some "2026-06-03", contextNumAdults := some 3,
    contextChildrenAges := [], contextCustomerInfo := none, contextHotelInfo := true,
    currentSearchOptionsDetails := ["opt-1"], selectedOptionDetails := true }

def resC7 : CreateReservationResult :=
  errorReservationResult "guest count mismatch: offer expects 3 guests, 2 provided"

/-- Claim C7, counterexample: after a guest-count-mismatch reservation failure
the turn handler sets the session action to idle, not AwaitingBookingDetails,
even though the selection context is retained. -/
theorem claim_C7_counterexample :
    (handleCreateReservationResult sessionC7 resC7).action = BotAction.idle ∧
    BotAction.idle ≠ BotAction.awaitingBookingDetails ∧
    (handleCreateReservationResult sessionC7 resC7).selectedOptionId = some "opt-1" := by
  decide

/-- Claim C7, amended: after a reservation failure whose result status is the
error status, the turn handler leaves every session field unchanged except the
action, which is cleared to idle; in particular the selected option,
guarantee code and search context survive, but the session does not remain in
AwaitingBookingDetails. -/
theorem claim_C7_session_after_mismatch (s : BotSession) (res : CreateReservationResult)
    (h : lowerStr res.status = "error") :
    handleCreateReservationResult s res = { s with action := BotAction.idle } := by
  have hmem : lowerStr res.status ∈ reservationErrorStatuses := by
    rw [h]
    decide
  unfold handleCreateReservationResult
  rw [if_pos hmem]

theorem claim_C7_witness :
    lowerStr resC7.status = "error" ∧
    handleCreateReservationResult sessionC7 resC7
      = { sessionC7 with action := BotAction.idle } :=
  ⟨by decide, claim_C7_session_after_mismatch sessionC7 resC7 (by decide)⟩

/-! ## Directive repair for the reservation-creating tool

sanitizeReservationArguments models tools.py lines 760-767: when the chosen
tool is the reservation-creating tool, caller-supplied booking_option_id and
guarantee_code keys are deleted from the directive arguments.
finalizeReservationArguments models telegram_bot.py lines 476-478: truthy
session values overwrite the corresponding argument keys.
dispatchCreateReservation composes the two stages with the missing-selection
guard of line 480 and the parameter validation of line 485 (missing customer,
or a child guest without an age). -/

structure DirectiveArguments where
  bookingOptionId : Option String
  guaranteeCode : Option String
  guests : List GuestDetailLLM
  customer : Option CustomerDetailLLM
  language : Option String
deriving Repr, DecidableEq

def createReservationToolName : String := "create_exely_reservation_and_get_link"

def sanitizeReservationArguments (toolName : Option String) (args : DirectiveArguments) :
    DirectiveArguments :=
  if toolName = some createReservationToolName then
    { args with bookingOptionId := none, guaranteeCode := none }
  else args

def finalizeReservationArguments (s : BotSession) (args : DirectiveArguments) :
    DirectiveArguments :=
  let a1 := if pyTruthyStr s.selectedOptionId
            then { args with bookingOptionId := s.selectedOptionId } else args
  if pyTruthyStr s.selectedGuaranteeCode
  then { a1 with guaranteeCode := s.selectedGuaranteeCode } else a1

/-- Validity of one guest record under the GuestDetailLLM model validator. -/
def guestDetailValid (g : GuestDetailLLM) : Bool := !g.isChild || g.age.isSome

inductive ReservationDispatch where
  | clarifyMissingSelection
  | clarifyInvalidParams
  | invoke (params : CreateReservationToolParams)
deriving Repr, DecidableEq

def dispatchCreateReservation (s : BotSession) (llmArgs : DirectiveArguments) :
    ReservationDispatch :=
  let fa := finalizeReservationArguments s
    (sanitizeReservationArguments (some createReservationToolName) llmArgs)
  if pyTruthyStr fa.bookingOptionId && pyTruthyStr fa.guaranteeCode then
    if fa.guests.all guestDetailValid then
      match fa.customer with
      | some cust =>
          ReservationDispatch.invoke
            { bookingOptionId := fa.bookingOptionId.getD "", guests := fa.guests,
              customer := cust, guaranteeCode := fa.guaranteeCode.getD "",
              language := fa.language }
      | none => ReservationDispatch.clarifyInvalidParams
    else ReservationDispatch.clarifyInvalidParams
  else ReservationDispatch.clarifyMissingSelection

/-- Claim C3: two directives for the reservation-creating tool that differ
only in their booking_option_id and guarantee_code arguments dispatch
identically, and whenever a reservation call is made its option id and
guarantee code are exactly the truthy session values — the directive-supplied
values are discarded and have no influence. -/
theorem claim_C3_session_authoritative (s : BotSession) (a1 a2 : DirectiveArguments)
    (hg : a1.guests = a2.guests) (hc : a1.customer = a2.customer)
    (hl : a1.language = a2.language) :
    dispatchCreateReservation s a1 = dispatchCreateReservation s a2 ∧
    ∀ p, dispatchCreateReservation s a1 = ReservationDispatch.invoke p →
      s.selectedOptionId = some p.bookingOptionId ∧
      s.selectedGuaranteeCode = some p.guaranteeCode := by
  have hsan : sanitizeReservationArguments (some createReservationToolName) a1
      = sanitizeReservationArguments (some createReservationToolName) a2 := by
    cases a1
    cases a2
    simp only [DirectiveArguments.mk.injEq] at hg hc hl ⊢
    simp [sanitizeReservationArguments, hg, hc, hl]
  refine ⟨by unfold dispatchCreateReservation; rw [hsan], ?_⟩
  intro p hp
  have hsab : (sanitizeReservationArguments (some createReservationToolName) a1).bookingOptionId
      = none := by
    simp [sanitizeReservationArguments]
  have hsag : (sanitizeReservationArguments (some createReservationToolName) a1).guaranteeCode
      = none := by
    simp [sanitizeReservationArguments]
  have hfab : (finalizeReservationArguments s
        (sanitizeReservationArguments (some createReservationToolName) a1)).bookingOptionId
      = if pyTruthyStr s.selectedOptionId then s.selectedOptionId else none := by
    simp only [finalizeReservationArguments]
    by_cases h1 : pyTruthyStr s.selectedOptionId <;>
      by_cases h2 : pyTruthyStr s.selectedGuaranteeCode <;>
        simp [h1, h2, hsab]
  have hfag : (finalizeReservationArguments s
        (sanitizeReservationArguments (some createReservationToolName) a1)).guaranteeCode
      = if pyTruthyStr s.selectedGuaranteeCode then s.selectedGuaranteeCode else none := by
    simp only [finalizeReservationArguments]
    by_cases h1 : pyTruthyStr s.selectedOptionId <;>
      by_cases h2 : pyTruthyStr s.selectedGuaranteeCode <;>
        simp [h1, h2, hsag]
  simp only [dispatchCreateReservation] at hp
  by_cases hb : (pyTruthyStr (finalizeReservationArguments s
        (sanitizeReservationArguments (some createReservationToolName) a1)).bookingOptionId
      && pyTruthyStr (finalizeReservationArguments s
        (sanitizeReservationArguments (some createReservationToolName) a1)).guaranteeCode)
      = true
  · rw [if_pos hb] at hp
    rw [Bool.and_eq_true] at hb
    obtain ⟨hb1, hb2⟩ := hb
    rw [hfab] at hb1
    rw [hfag] at hb2
    by_cases h1 : pyTruthyStr s.selectedOptionId
    · by_cases h2 : pyTruthyStr s.selectedGuaranteeCode
      · split at hp
        · split at hp
          · injection hp with hpeq
            rw [← hpeq]
            simp only []
            rw [hfab, hfag, if_pos h1, if_pos h2]
            cases hov : s.selectedOptionId with
            | none => rw [hov] at h1; simp [pyTruthyStr] at h1
            | some v =>
                cases hgv : s.selectedGuaranteeCode with
                | none => rw [hgv] at h2; simp [pyTruthyStr] at h2
                | some w => simp
          · simp at hp
        · simp at hp
      · rw [if_neg h2] at hb2
        simp [pyTruthyStr] at hb2
    · rw [if_neg h1] at hb1
      simp [pyTruthyStr] at hb1
  · rw [if_neg hb] at hp
    simp at hp

def sessionC3 : BotSession :=
  { sessionC7 with action := BotAction.awaitingBookingDetails }

def argsAttacker : DirectiveArguments :=
  { bookingOptionId := some "attacker-option", guaranteeCode := some "attacker-code",
    guests := [guestW], customer := some customerW, language := none }

def argsHonest : DirectiveArguments :=
  { bookingOptionId := none, guaranteeCode := none,
    guests := [guestW], customer := some customerW, language := none }

theorem claim_C3_witness :
    argsAttacker.guests = argsHonest.guests ∧
    argsAttacker.customer = argsHonest.customer ∧
    argsAttacker.language = argsHonest.language ∧
    dispatchCreateReservation sessionC3 argsAttacker
      = dispatchCreateReservation sessionC3 argsHonest :=
  ⟨rfl, rfl, rfl,
   (claim_C3_session_authoritative sessionC3 argsAttacker argsHonest rfl rfl rfl).1⟩

/-! ## Language-model call failures (app/llm_client/llm_client.py lines 18-88
and tools.py lines 724-739)

getLlmResponse maps each outcome of the completion call to the dict returned
by the source: a parsed directive, or an error dict.  The exception branch of
the source (lines 72-88) handles every exception identically, including
provider rate limiting; no branch anywhere in the sources sets the
rate-limit marker key that tools.py line 730 and telegram_bot.py line 319
test for, so hasRateLimitMarker is false in every case and the isRateLimit
flag of the exception is never inspected. -/

structure LlmDirective where
  toolName : Option String
  arguments : DirectiveArguments
  clarificationNeeded : Option String
deriving Repr, DecidableEq

structure LlmResponseDict where
  hasRateLimitMarker : Bool
  errorField : Option String
  detailsField : Option String
  directive : Option LlmDirective
deriving Repr, DecidableEq

inductive LlmCallOutcome where
  | parsedJson (d : LlmDirective)
  | invalidJson
  | emptyContent
  | apiException (isRateLimit : Bool) (msg : String)
deriving Repr, DecidableEq

def getLlmResponse : LlmCallOutcome → LlmResponseDict
  | .parsedJson d =>
      { hasRateLimitMarker := false, errorField := none, detailsField := none,
        directive := some d }
  | .invalidJson =>
      { hasRateLimitMarker := false, errorField := some "LLM returned invalid JSON.",
        detailsField := none, directive := none }
  | .emptyContent =>
      { hasRateLimitMarker := false, errorField := some "LLM response content was empty.",
        detailsField := none, directive := none }
  | .apiException _ msg =>
      { hasRateLimitMarker := false,
        errorField := some ("LLM API call failed: " ++ msg),
        detailsField := some msg, directive := none }

inductive OrchestratorOutcome where
  | rateLimitPassthrough (r : LlmResponseDict)
  | mcpClientError (message : String)
  | directive (d : LlmDirective)
  | malformedResponseClarification
deriving Repr, DecidableEq

/-- Post-processing of the LLM result in process_natural_language_request
(tools.py lines 726-755): the rate-limit marker is checked first, then error
dicts become mcp-client errors, then a structurally valid directive is
passed on. -/
def orchestrateLlmResult (r : LlmResponseDict) : OrchestratorOutcome :=
  if r.hasRateLimitMarker then OrchestratorOutcome.rateLimitPassthrough r
  else
    match r.errorField with
    | some msg => OrchestratorOutcome.mcpClientError msg
    | none =>
        match r.directive with
        | some d => OrchestratorOutcome.directive d
        | none => OrchestratorOutcome.malformedResponseClarification

/-- Claim C9: a completion call that fails because of provider rate limiting
is surfaced exactly like any other model failure — as a generic mcp-client
error whose dict never carries the rate-limit marker that the downstream
checks test for — so the distinguishable rate-limit outcome is unreachable
from the model call. -/
theorem claim_C9_rate_limit_not_distinguished (msg : String) :
    orchestrateLlmResult (getLlmResponse (.apiException true msg))
      = OrchestratorOutcome.mcpClientError ("LLM API call failed: " ++ msg) ∧
    orchestrateLlmResult (getLlmResponse (.apiException true msg))
      = orchestrateLlmResult (getLlmResponse (.apiException false msg)) ∧
    (getLlmResponse (.apiException true msg)).hasRateLimitMarker = false :=
  ⟨rfl, rfl, rfl⟩

end ExelySpec
